import Mathlib

/-!
Verification of the collision core of `butterfly_effect` (pyweek29).

The embedding follows `src/butterfly_effect/kinematic.py`:

* `CollisionSystem.elastic_collision` is a pure arithmetic function over
  2-D vectors (dot product, scalar scaling) and masses that may be the
  float `inf`.  It involves no square roots, so it is embedded over `ℚ`
  with an explicit `Mass` type (`fin q` or `inf`), keeping every branch
  of the Python control flow and making the function fully executable.

* The geometric detectors (`Ball.collision_vector`,
  `Wall.collision_with_ball`), the double dispatch
  (`CollisionSystem.collision_vector`) and the `Splitter` fission rule
  use `length` (a square root) and `rotate` (sine/cosine of an angle in
  degrees), so they are embedded over `ℝ`.

* A probe that returns Python's `NotImplemented` is embedded as `none`;
  a returned vector is `some v`.
-/

/-! ## Rational 2-D vectors, for the elastic-collision formula -/

structure QVec where
  x : ℚ
  y : ℚ
deriving DecidableEq, Repr

namespace QVec

instance : Zero QVec := ⟨⟨0, 0⟩⟩

instance : Add QVec := ⟨fun a b => ⟨a.x + b.x, a.y + b.y⟩⟩

instance : Neg QVec := ⟨fun a => ⟨-a.x, -a.y⟩⟩

instance : SMul ℚ QVec := ⟨fun c a => ⟨c * a.x, c * a.y⟩⟩

/-- Dot product; in the source this is `Vector.__mul__` (`x_hat * v`). -/
def dot (a b : QVec) : ℚ := a.x * b.x + a.y * b.y

end QVec

/-- A mass as used by the source: a finite number or the float `inf`
(`m1 == float('inf')` is an exact, decidable test in Python). -/
inductive Mass where
  | fin (m : ℚ)
  | inf
deriving DecidableEq, Repr

/-- The finite value of a mass; junk value `0` on `inf` (only read in
branches the source guards by `m != float('inf')`). -/
def Mass.val : Mass → ℚ
  | .fin m => m
  | .inf => 0

namespace CollisionSystem

/-- Embedding of `CollisionSystem.elastic_collision` from
`kinematic.py`: the velocity deltas `(dv1, dv2)` of an elastic collision
between a stationary object `O1` and an object `O2` moving with velocity
`v`, along the unit normal `x_hat`.  Mirrors the Python branch for
branch: both masses infinite; separating (`v_normal >= 0`) and not
`internal`; `m1` infinite (wall); `m2` infinite (paddle); general
two-finite-mass formula. -/
def elastic_collision (x_hat v : QVec) (m1 m2 : Mass) (internal : Bool) :
    QVec × QVec :=
  if m1 = .inf ∧ m2 = .inf then
    (0, 0)
  else
    let v_normal := QVec.dot x_hat v
    if 0 ≤ v_normal ∧ internal = false then
      (0, 0)
    else if m1 = .inf then
      (0, (-2 * v_normal) • x_hat)
    else if m2 = .inf then
      ((2 * v_normal) • x_hat, 0)
    else
      let total_mass := m1.val + m2.val
      let dv1_normal := 2 * m2.val / total_mass * v_normal
      let dv2_normal := (m2.val - m1.val) / total_mass * v_normal
      (dv1_normal • x_hat, (dv2_normal - v_normal) • x_hat)

end CollisionSystem

/-! ## Real 2-D vectors, for the geometric detectors

These model the `ppb.Vector` operations the detectors use: `length`
(Euclidean norm), `normalize` (`scale_to(1)`, i.e. scaling by the
reciprocal of the length; at the zero vector the real-number convention
`1/0 = 0` yields the zero vector), and `rotate` (counterclockwise by an
angle in degrees). -/

@[ext]
structure Vec where
  x : ℝ
  y : ℝ

namespace Vec

instance : Zero Vec := ⟨⟨0, 0⟩⟩

instance : Add Vec := ⟨fun a b => ⟨a.x + b.x, a.y + b.y⟩⟩

instance : Sub Vec := ⟨fun a b => ⟨a.x - b.x, a.y - b.y⟩⟩

instance : Neg Vec := ⟨fun a => ⟨-a.x, -a.y⟩⟩

instance : SMul ℝ Vec := ⟨fun c a => ⟨c * a.x, c * a.y⟩⟩

/-- Dot product (`Vector.__mul__`). -/
def dot (a b : Vec) : ℝ := a.x * b.x + a.y * b.y

/-- Euclidean norm (`Vector.length`). -/
noncomputable def length (v : Vec) : ℝ := Real.sqrt (v.x ^ 2 + v.y ^ 2)

/-- `Vector.normalize`, i.e. `scale_to(1)`: scaling by the reciprocal
of the length. -/
noncomputable def normalize (v : Vec) : Vec := (1 / v.length) • v

/-- `Vector.rotate`: counterclockwise rotation by `deg` degrees. -/
noncomputable def rotate (v : Vec) (deg : ℝ) : Vec :=
  ⟨v.x * Real.cos (deg * Real.pi / 180) - v.y * Real.sin (deg * Real.pi / 180),
   v.x * Real.sin (deg * Real.pi / 180) + v.y * Real.cos (deg * Real.pi / 180)⟩

end Vec

/-! ## Bodies

The collidable bodies of the scene: `Ball` (with its subtype
`Splitter`, which `isinstance(_, Ball)` also accepts) and `Wall`.  Only
the fields the embedded collision functions read are carried:
position/size for circle geometry, position/rotation/size for wall
geometry, and the full kinematic state for `Splitter`. -/

open Classical

/-- The state of a `Splitter` body (a `Ball` subclass): position,
velocity, diameter `size`, `mass`, and its `split_angle` attribute
(class default `10`). -/
structure Splitter where
  position : Vec
  velocity : Vec
  size : ℝ
  mass : ℝ
  split_angle : ℝ

/-- A collidable body of the scene. -/
inductive Body where
  | ball (position : Vec) (size : ℝ)
  | splitter (s : Splitter)
  | wall (position : Vec) (rotation : ℝ) (size : ℝ)

/-- The circle data of a body, when `isinstance(other, Ball)` holds in
the source: `Ball` and its subclass `Splitter` are circles, `Wall` is
not. -/
def Body.ballData : Body → Option (Vec × ℝ)
  | .ball p s => some (p, s)
  | .splitter sp => some (sp.position, sp.size)
  | .wall _ _ _ => none

namespace Ball

/-- The circle-circle case of `Ball.collision_vector`: `x` is the
vector between the centers; zero if not touching or coincident,
otherwise the normalized center-to-center vector. -/
noncomputable def collision_vector_ball (spos : Vec) (ssize : ℝ)
    (opos : Vec) (osize : ℝ) : Vec :=
  let x := opos - spos
  if (ssize + osize) / 2 < x.length then 0
  else if x = 0 then x
  else x.normalize

/-- Embedding of `Ball.collision_vector`: answers on circle-circle
pairs, declines (`NotImplemented`, i.e. `none`) on anything else. -/
noncomputable def collision_vector (spos : Vec) (ssize : ℝ) (other : Body) :
    Option Vec :=
  match other.ballData with
  | some od => some (collision_vector_ball spos ssize od.1 od.2)
  | none => none

end Ball

namespace Wall

/-- `self.left.bottom` (also `self.bottom.left`): the bottom-left
corner of the axis-aligned square, prior to rotation. -/
noncomputable def left_bottom (p : Vec) (size : ℝ) : Vec := ⟨p.x - size / 2, p.y - size / 2⟩

/-- `self.left.top` (also `self.top.left`). -/
noncomputable def left_top (p : Vec) (size : ℝ) : Vec := ⟨p.x - size / 2, p.y + size / 2⟩

/-- `self.right.bottom` (also `self.bottom.right`). -/
noncomputable def right_bottom (p : Vec) (size : ℝ) : Vec := ⟨p.x + size / 2, p.y - size / 2⟩

/-- `self.right.top` (also `self.top.right`). -/
noncomputable def right_top (p : Vec) (size : ℝ) : Vec := ⟨p.x + size / 2, p.y + size / 2⟩

/-- One iteration of the side-collision loop: the projection scalar `e`
of `x = position_rotated - c1` on the edge direction and the
perpendicular residual `n`; a hit (`some n`) when `0 ≤ e ≤ ‖c‖` and
`‖n‖ ≤ r`. -/
noncomputable def edge_check (pr : Vec) (r : ℝ) (c1 c2 : Vec) : Option Vec :=
  let x := pr - c1
  let c := c2 - c1
  let c_hat := c.normalize
  let e := Vec.dot x c_hat
  let n := x - e • c_hat
  if 0 ≤ e ∧ e ≤ c.length ∧ n.length ≤ r then some n else none

/-- One iteration of the corner-collision loop: a hit when the rotated
ball center is within `r` of the corner `c`. -/
noncomputable def corner_check (pr : Vec) (r : ℝ) (c : Vec) : Option Vec :=
  let n := pr - c
  if n.length ≤ r then some n else none

/-- Embedding of `Wall.collision_with_ball`: transform the ball center
into the wall's unrotated frame, run the side-collision loop over the
four edges (left, bottom, right, top), then the corner loop over the
four corners (left-top, right-top, left-bottom, right-bottom); a hit
`n` yields `n.normalize().rotate(self.rotation)`, otherwise the zero
vector. -/
noncomputable def collision_with_ball (wpos : Vec) (wrot wsize : ℝ)
    (bpos : Vec) (bsize : ℝ) : Vec :=
  let position_rotated := (bpos - wpos).rotate (-wrot) + wpos
  match [(left_bottom wpos wsize, left_top wpos wsize),
         (left_bottom wpos wsize, right_bottom wpos wsize),
         (right_bottom wpos wsize, right_top wpos wsize),
         (left_top wpos wsize, right_top wpos wsize)].findSome?
        (fun cc => edge_check position_rotated (bsize / 2) cc.1 cc.2) with
  | some n => n.normalize.rotate wrot
  | none =>
    match [left_top wpos wsize, right_top wpos wsize,
           left_bottom wpos wsize, right_bottom wpos wsize].findSome?
          (corner_check position_rotated (bsize / 2)) with
    | some n => n.normalize.rotate wrot
    | none => 0

/-- The claim's description of `collision_with_ball`, written as an
explicit decision cascade: the four edge tests in order (left, bottom,
right, top), first match wins; the four corner tests only if every edge
test failed; zero if nothing matches.  To be proved equal to
`collision_with_ball`. -/
noncomputable def collision_with_ball_claim (wpos : Vec) (wrot wsize : ℝ)
    (bpos : Vec) (bsize : ℝ) : Vec :=
  let pr := (bpos - wpos).rotate (-wrot) + wpos
  let r := bsize / 2
  let lb := left_bottom wpos wsize
  let lt := left_top wpos wsize
  let rb := right_bottom wpos wsize
  let rt := right_top wpos wsize
  let eL := Vec.dot (pr - lb) (lt - lb).normalize
  let nL := (pr - lb) - eL • (lt - lb).normalize
  let eB := Vec.dot (pr - lb) (rb - lb).normalize
  let nB := (pr - lb) - eB • (rb - lb).normalize
  let eR := Vec.dot (pr - rb) (rt - rb).normalize
  let nR := (pr - rb) - eR • (rt - rb).normalize
  let eT := Vec.dot (pr - lt) (rt - lt).normalize
  let nT := (pr - lt) - eT • (rt - lt).normalize
  if 0 ≤ eL ∧ eL ≤ (lt - lb).length ∧ nL.length ≤ r then
    nL.normalize.rotate wrot
  else if 0 ≤ eB ∧ eB ≤ (rb - lb).length ∧ nB.length ≤ r then
    nB.normalize.rotate wrot
  else if 0 ≤ eR ∧ eR ≤ (rt - rb).length ∧ nR.length ≤ r then
    nR.normalize.rotate wrot
  else if 0 ≤ eT ∧ eT ≤ (rt - lt).length ∧ nT.length ≤ r then
    nT.normalize.rotate wrot
  else if (pr - lt).length ≤ r then (pr - lt).normalize.rotate wrot
  else if (pr - rt).length ≤ r then (pr - rt).normalize.rotate wrot
  else if (pr - lb).length ≤ r then (pr - lb).normalize.rotate wrot
  else if (pr - rb).length ≤ r then (pr - rb).normalize.rotate wrot
  else 0

/-- Embedding of `Wall.collision_vector`: answers on balls (including
`Splitter`s), declines on anything else. -/
noncomputable def collision_vector (wpos : Vec) (wrot wsize : ℝ)
    (other : Body) : Option Vec :=
  match other.ballData with
  | some bd => some (collision_with_ball wpos wrot wsize bd.1 bd.2)
  | none => none

end Wall

/-- The `collision_vector` probe of a body, dispatching on the body's
own class (`CollidableMixin.collision_vector` is the `NotImplemented`
fallback; `Ball` and `Wall` override it). -/
noncomputable def Body.collision_vector (self other : Body) : Option Vec :=
  match self with
  | .ball p s => Ball.collision_vector p s other
  | .splitter sp => Ball.collision_vector sp.position sp.size other
  | .wall p rot s => Wall.collision_vector p rot s other

/-- Embedding of the double dispatch `CollisionSystem.collision_vector`:
ask `o1`; if it declines, ask `o2` and negate; if both decline, the pair
is non-colliding. -/
noncomputable def CollisionSystem.collision_vector (o1 o2 : Body) : Vec :=
  match Body.collision_vector o1 o2 with
  | some x_hat => x_hat
  | none =>
    match Body.collision_vector o2 o1 with
    | some neg_x_hat => -neg_x_hat
    | none => 0

namespace Splitter

/-- `Ball.on_update`, the motion-integration step a `Splitter` inherits:
`position += velocity * time_delta`. -/
noncomputable def ball_update (s : Splitter) (dt : ℝ) : Splitter :=
  ⟨s.position + dt • s.velocity, s.velocity, s.size, s.mass, s.split_angle⟩

/-- A child spawned by the fission branch of `Splitter.on_update`: same
position, velocity rotated by `ang`, `size/sqrt(2)`, `mass/2`; the
constructor call passes no `split_angle`, so the child carries the class
default `10`. -/
noncomputable def child (s : Splitter) (ang : ℝ) : Splitter :=
  ⟨s.position, s.velocity.rotate ang, s.size / Real.sqrt 2, s.mass / 2, 10⟩

/-- Embedding of `Splitter.on_update` acting on the live-body
collection: `others` are the scene's other bodies, the splitter itself
is the remaining member.  After the inherited motion step, if
`mass * ‖velocity‖ ≥ 1` the scene gains the two children and loses the
parent; otherwise the parent (moved, otherwise untouched) stays. -/
noncomputable def on_update (s : Splitter) (dt : ℝ) (others : List Body) :
    List Body :=
  let moved := s.ball_update dt
  if 1 ≤ moved.mass * moved.velocity.length then
    others ++ [Body.splitter (moved.child moved.split_angle),
               Body.splitter (moved.child (-moved.split_angle))]
  else
    others ++ [Body.splitter moved]

end Splitter

/-! ## Theorems -/

namespace QVec

theorem qzero_x : (0 : QVec).x = 0 := rfl

theorem qzero_y : (0 : QVec).y = 0 := rfl

theorem qadd_x (a b : QVec) : (a + b).x = a.x + b.x := rfl

theorem qadd_y (a b : QVec) : (a + b).y = a.y + b.y := rfl

theorem qsmul_x (c : ℚ) (a : QVec) : (c • a).x = c * a.x := rfl

theorem qsmul_y (c : ℚ) (a : QVec) : (c • a).y = c * a.y := rfl

end QVec

theorem QVec.dot_smul_right (c : ℚ) (a b : QVec) :
    QVec.dot a (c • b) = c * QVec.dot a b := by
  simp only [QVec.dot, QVec.qsmul_x, QVec.qsmul_y]; ring

theorem QVec.dot_add_right (a b c : QVec) :
    QVec.dot a (b + c) = QVec.dot a b + QVec.dot a c := by
  simp only [QVec.dot, QVec.qadd_x, QVec.qadd_y]; ring

namespace Vec

@[simp] theorem zero_x : (0 : Vec).x = 0 := rfl

@[simp] theorem zero_y : (0 : Vec).y = 0 := rfl

@[simp] theorem add_x (a b : Vec) : (a + b).x = a.x + b.x := rfl

@[simp] theorem add_y (a b : Vec) : (a + b).y = a.y + b.y := rfl

@[simp] theorem sub_x (a b : Vec) : (a - b).x = a.x - b.x := rfl

@[simp] theorem sub_y (a b : Vec) : (a - b).y = a.y - b.y := rfl

@[simp] theorem neg_x (a : Vec) : (-a).x = -a.x := rfl

@[simp] theorem neg_y (a : Vec) : (-a).y = -a.y := rfl

@[simp] theorem smul_x (c : ℝ) (a : Vec) : (c • a).x = c * a.x := rfl

@[simp] theorem smul_y (c : ℝ) (a : Vec) : (c • a).y = c * a.y := rfl

theorem length_nonneg (v : Vec) : 0 ≤ v.length := Real.sqrt_nonneg _

theorem sq_add_sq_pos (v : Vec) (h : v ≠ 0) : 0 < v.x ^ 2 + v.y ^ 2 := by
  have hxy : v.x ≠ 0 ∨ v.y ≠ 0 := by
    by_contra hc
    push_neg at hc
    exact h (Vec.ext hc.1 hc.2)
  rcases hxy with hx | hy
  · have hx2 : 0 < v.x ^ 2 := by
      have := pow_pos (abs_pos.mpr hx) 2
      rwa [sq_abs] at this
    have := sq_nonneg v.y
    linarith
  · have hy2 : 0 < v.y ^ 2 := by
      have := pow_pos (abs_pos.mpr hy) 2
      rwa [sq_abs] at this
    have := sq_nonneg v.x
    linarith

theorem length_pos (v : Vec) (h : v ≠ 0) : 0 < v.length :=
  Real.sqrt_pos.mpr (sq_add_sq_pos v h)

theorem length_smul (c : ℝ) (v : Vec) : (c • v).length = |c| * v.length := by
  simp only [length, smul_x, smul_y]
  rw [show (c * v.x) ^ 2 + (c * v.y) ^ 2 = c ^ 2 * (v.x ^ 2 + v.y ^ 2) by ring,
    Real.sqrt_mul (sq_nonneg c), Real.sqrt_sq_eq_abs]

@[simp] theorem smul_zero_vec (c : ℝ) : c • (0 : Vec) = 0 := by
  ext <;> simp

@[simp] theorem normalize_zero : normalize (0 : Vec) = 0 := by
  simp [normalize]

theorem length_normalize (v : Vec) (h : v ≠ 0) : v.normalize.length = 1 := by
  have hl := length_pos v h
  rw [normalize, length_smul, abs_of_nonneg (by positivity : (0:ℝ) ≤ 1 / v.length)]
  field_simp

theorem length_rotate (v : Vec) (deg : ℝ) : (v.rotate deg).length = v.length := by
  simp only [rotate, length]
  congr 1
  linear_combination (v.x ^ 2 + v.y ^ 2) *
    Real.sin_sq_add_cos_sq (deg * Real.pi / 180)

theorem rotate_zero_vec (deg : ℝ) : (0 : Vec).rotate deg = 0 := by
  ext <;> simp [rotate]

/-- Any value of the shape every Wall branch returns
(`n.normalize().rotate(rotation)`) is the zero vector or a unit
vector. -/
theorem normalize_rotate_zero_or_unit (n : Vec) (deg : ℝ) :
    n.normalize.rotate deg = 0 ∨ (n.normalize.rotate deg).length = 1 := by
  by_cases h : n = 0
  · left; rw [h, normalize_zero, rotate_zero_vec]
  · right; rw [length_rotate, length_normalize n h]

/-- A normalized vector is the zero vector (when the input was zero) or
a unit vector. -/
theorem normalize_zero_or_unit (n : Vec) :
    n.normalize = 0 ∨ n.normalize.length = 1 := by
  by_cases h : n = 0
  · left; rw [h, normalize_zero]
  · right; exact length_normalize n h

@[simp] theorem neg_zero_vec : -(0 : Vec) = 0 := by
  ext <;> simp

theorem length_neg (v : Vec) : (-v).length = v.length := by
  simp only [length, neg_x, neg_y]
  congr 1
  ring

@[simp] theorem length_zero_vec : (0 : Vec).length = 0 := by
  simp [length]

theorem rotate_zero_deg (v : Vec) : v.rotate 0 = v := by
  ext <;> simp [rotate]

/-- Length of a vector on the positive x-axis. -/
theorem length_mk_x (a : ℝ) (h : 0 ≤ a) : (⟨a, 0⟩ : Vec).length = a := by
  rw [length, show a ^ 2 + (0:ℝ) ^ 2 = a ^ 2 by ring, Real.sqrt_sq h]

end Vec

/-- A vector the probe `Body.collision_vector` answers with is an output
of the circle-circle case or of the wall-ball case. -/
theorem probe_some_zero_or_unit (o1 o2 : Body) (u : Vec)
    (h : Body.collision_vector o1 o2 = some u) : u = 0 ∨ u.length = 1 := by
  have hball : ∀ (spos : Vec) (ssize : ℝ) (opos : Vec) (osize : ℝ),
      Ball.collision_vector_ball spos ssize opos osize = 0 ∨
      (Ball.collision_vector_ball spos ssize opos osize).length = 1 := by
    intro spos ssize opos osize
    simp only [Ball.collision_vector_ball]
    split
    · left; rfl
    · split
      · next hx => left; exact hx
      · exact Vec.normalize_zero_or_unit _
  have hwall : ∀ (wpos : Vec) (wrot wsize : ℝ) (bpos : Vec) (bsize : ℝ),
      Wall.collision_with_ball wpos wrot wsize bpos bsize = 0 ∨
      (Wall.collision_with_ball wpos wrot wsize bpos bsize).length = 1 := by
    intro wpos wrot wsize bpos bsize
    simp only [Wall.collision_with_ball]
    split
    · exact Vec.normalize_rotate_zero_or_unit _ _
    · split
      · exact Vec.normalize_rotate_zero_or_unit _ _
      · left; rfl
  cases o1 with
  | ball p s =>
    simp only [Body.collision_vector, Ball.collision_vector] at h
    cases hbd : o2.ballData with
    | some od => rw [hbd] at h; cases h; exact hball _ _ _ _
    | none => rw [hbd] at h; exact Option.noConfusion h
  | splitter sp =>
    simp only [Body.collision_vector, Ball.collision_vector] at h
    cases hbd : o2.ballData with
    | some od => rw [hbd] at h; cases h; exact hball _ _ _ _
    | none => rw [hbd] at h; exact Option.noConfusion h
  | wall p rot s =>
    simp only [Body.collision_vector, Wall.collision_vector] at h
    cases hbd : o2.ballData with
    | some bd => rw [hbd] at h; cases h; exact hwall _ _ _ _ _
    | none => rw [hbd] at h; exact Option.noConfusion h

/-- Claim C1: for every unit normal `x_hat`, every velocity `v`, and finite
positive masses `m1 = a`, `m2 = b` with `x_hat·v < 0`, the pair
`(dv1, dv2)` returned by `elastic_collision` conserves momentum along the
normal (`m1·(x_hat·dv1) + m2·(x_hat·dv2) = 0`) and conserves kinetic
energy along the normal: with `O1` initially at rest and `O2` at velocity
`v`, `m1·(x_hat·dv1)² + m2·(x_hat·(v+dv2))² = m2·(x_hat·v)²`. -/
theorem elastic_collision_conserves (x_hat v : QVec) (a b : ℚ)
    (hx : QVec.dot x_hat x_hat = 1) (ha : 0 < a) (hb : 0 < b)
    (hv : QVec.dot x_hat v < 0) :
    a * QVec.dot x_hat
        (CollisionSystem.elastic_collision x_hat v (.fin a) (.fin b) false).1
      + b * QVec.dot x_hat
        (CollisionSystem.elastic_collision x_hat v (.fin a) (.fin b) false).2
      = 0 ∧
    a * (QVec.dot x_hat
        (CollisionSystem.elastic_collision x_hat v (.fin a) (.fin b) false).1) ^ 2
      + b * (QVec.dot x_hat
        (v + (CollisionSystem.elastic_collision x_hat v (.fin a) (.fin b) false).2)) ^ 2
      = b * (QVec.dot x_hat v) ^ 2 := by
  have hab : a + b ≠ 0 := by positivity
  have hgen : CollisionSystem.elastic_collision x_hat v (.fin a) (.fin b) false
      = ((2 * b / (a + b) * QVec.dot x_hat v) • x_hat,
         ((b - a) / (a + b) * QVec.dot x_hat v - QVec.dot x_hat v) • x_hat) := by
    unfold CollisionSystem.elastic_collision
    rw [if_neg (by simp), if_neg (by simp [not_le.mpr hv]), if_neg (by simp),
      if_neg (by simp)]
    simp [Mass.val]
  rw [hgen]
  simp only [QVec.dot_add_right, QVec.dot_smul_right, hx]
  constructor
  · field_simp
    ring
  · field_simp
    ring

/-- Witness for C1 at `x_hat = (1,0)`, `v = (-1,0)`, `m1 = m2 = 1`. -/
theorem elastic_collision_conserves_witness :
    QVec.dot ⟨1, 0⟩ ⟨1, 0⟩ = 1 ∧ (0 : ℚ) < 1 ∧
      QVec.dot ⟨1, 0⟩ (⟨-1, 0⟩ : QVec) < 0 ∧
    (1 * QVec.dot ⟨1, 0⟩
        (CollisionSystem.elastic_collision ⟨1, 0⟩ ⟨-1, 0⟩ (.fin 1) (.fin 1) false).1
      + 1 * QVec.dot ⟨1, 0⟩
        (CollisionSystem.elastic_collision ⟨1, 0⟩ ⟨-1, 0⟩ (.fin 1) (.fin 1) false).2
      = 0 ∧
    1 * (QVec.dot ⟨1, 0⟩
        (CollisionSystem.elastic_collision ⟨1, 0⟩ ⟨-1, 0⟩ (.fin 1) (.fin 1) false).1) ^ 2
      + 1 * (QVec.dot ⟨1, 0⟩
        ((⟨-1, 0⟩ : QVec) +
          (CollisionSystem.elastic_collision ⟨1, 0⟩ ⟨-1, 0⟩ (.fin 1) (.fin 1) false).2)) ^ 2
      = 1 * (QVec.dot ⟨1, 0⟩ (⟨-1, 0⟩ : QVec)) ^ 2) :=
  ⟨by norm_num [QVec.dot], by norm_num, by norm_num [QVec.dot],
    elastic_collision_conserves ⟨1, 0⟩ ⟨-1, 0⟩ 1 1 (by norm_num [QVec.dot])
      (by norm_num) (by norm_num) (by norm_num [QVec.dot])⟩

/-- Claim C2, counterexample: the claim asserts that when only `m2` is
infinite (with no further condition) the result is
`(2·(x_hat·v)·x_hat, 0)`.  At `x_hat = (1,0)`, `v = (1,0)`,
`m1 = 1`, `m2 = ∞`, `internal = false` the code takes the
`v_normal ≥ 0` early return and yields `(0, 0)`, not
`((2,0), (0,0))`. -/
theorem elastic_collision_m2_inf_cex :
    ¬ (CollisionSystem.elastic_collision ⟨1, 0⟩ ⟨1, 0⟩ (.fin 1) .inf false
        = ((2 * QVec.dot ⟨1, 0⟩ ⟨1, 0⟩) • ⟨1, 0⟩, 0)) := by
  intro h
  have h0 : CollisionSystem.elastic_collision ⟨1, 0⟩ ⟨1, 0⟩ (.fin 1) .inf false
      = (0, 0) := by
    unfold CollisionSystem.elastic_collision
    rw [if_neg (by simp), if_pos ⟨by norm_num [QVec.dot], rfl⟩]
  rw [h0] at h
  have hx := congrArg (fun p : QVec × QVec => p.1.x) h
  simp only [QVec.dot, QVec.qsmul_x, QVec.qzero_x] at hx
  norm_num at hx

/-- Claim C2, amended: an infinite-mass body's velocity delta from
`elastic_collision` is always zero; when both masses are infinite the
result is `(0,0)` regardless of `x_hat`, `v`, `internal`; when only `m1`
is infinite and `x_hat·v < 0` or `internal` is true, the result is
`(0, -2·(x_hat·v)·x_hat)`; and when only `m2` is infinite *and `x_hat·v
< 0` or `internal` is true* (the condition the original claim omitted),
the result is `(2·(x_hat·v)·x_hat, 0)`. -/
theorem elastic_collision_infinite_mass (x_hat v : QVec) (m : ℚ)
    (internal : Bool) :
    (∀ (m2 : Mass) (i : Bool),
      (CollisionSystem.elastic_collision x_hat v .inf m2 i).1 = 0) ∧
    (∀ (m1 : Mass) (i : Bool),
      (CollisionSystem.elastic_collision x_hat v m1 .inf i).2 = 0) ∧
    (∀ i : Bool,
      CollisionSystem.elastic_collision x_hat v .inf .inf i = (0, 0)) ∧
    (QVec.dot x_hat v < 0 ∨ internal = true →
      CollisionSystem.elastic_collision x_hat v .inf (.fin m) internal
        = (0, (-2 * QVec.dot x_hat v) • x_hat)) ∧
    (QVec.dot x_hat v < 0 ∨ internal = true →
      CollisionSystem.elastic_collision x_hat v (.fin m) .inf internal
        = ((2 * QVec.dot x_hat v) • x_hat, 0)) := by
  have hguard : ∀ i : Bool, QVec.dot x_hat v < 0 ∨ i = true →
      ¬ (0 ≤ QVec.dot x_hat v ∧ i = false) := by
    rintro i (h | h) ⟨h1, h2⟩
    · exact absurd h1 (not_le.mpr h)
    · rw [h] at h2; exact Bool.noConfusion h2
  refine ⟨?_, ?_, ?_, ?_, ?_⟩
  · intro m2 i
    simp only [CollisionSystem.elastic_collision]
    by_cases h2 : m2 = Mass.inf
    · rw [if_pos ⟨trivial, h2⟩]
    · rw [if_neg (by simp [h2])]
      by_cases hs : 0 ≤ QVec.dot x_hat v ∧ i = false
      · rw [if_pos hs]
      · rw [if_neg hs, if_pos trivial]
  · intro m1 i
    simp only [CollisionSystem.elastic_collision]
    by_cases h1 : m1 = Mass.inf
    · rw [if_pos ⟨h1, trivial⟩]
    · rw [if_neg (by simp [h1])]
      by_cases hs : 0 ≤ QVec.dot x_hat v ∧ i = false
      · rw [if_pos hs]
      · rw [if_neg hs, if_neg h1, if_pos trivial]
  · intro i
    unfold CollisionSystem.elastic_collision
    rw [if_pos ⟨rfl, rfl⟩]
  · intro h
    unfold CollisionSystem.elastic_collision
    rw [if_neg (by simp), if_neg (hguard internal h), if_pos rfl]
  · intro h
    unfold CollisionSystem.elastic_collision
    rw [if_neg (by simp), if_neg (hguard internal h), if_neg (by simp),
      if_pos rfl]

/-- Witness for C2 at `x_hat = (1,0)`, `v = (-1,0)`, `m1 = ∞`,
`m2 = 1`, `internal = false`. -/
theorem elastic_collision_infinite_mass_witness :
    (QVec.dot ⟨1, 0⟩ (⟨-1, 0⟩ : QVec) < 0 ∨ false = true) ∧
    CollisionSystem.elastic_collision ⟨1, 0⟩ ⟨-1, 0⟩ .inf (.fin 1) false
      = (0, (-2 * QVec.dot ⟨1, 0⟩ ⟨-1, 0⟩) • ⟨1, 0⟩) :=
  ⟨Or.inl (by norm_num [QVec.dot]),
    (elastic_collision_infinite_mass ⟨1, 0⟩ ⟨-1, 0⟩ 1 false).2.2.2.1
      (Or.inl (by norm_num [QVec.dot]))⟩

/-- Claim C3: for every `x_hat`, `v` and masses not both infinite: if
`x_hat·v ≥ 0` (the bodies are already separating along the normal) and
`internal` is false, `elastic_collision` returns exactly `(0, 0)`. -/
theorem elastic_collision_separating (x_hat v : QVec) (m1 m2 : Mass)
    (hm : ¬ (m1 = .inf ∧ m2 = .inf)) (hv : 0 ≤ QVec.dot x_hat v) :
    CollisionSystem.elastic_collision x_hat v m1 m2 false = (0, 0) := by
  unfold CollisionSystem.elastic_collision
  rw [if_neg hm, if_pos ⟨hv, rfl⟩]

/-- Witness for C3 at `x_hat = (1,0)`, `v = (1,0)`, `m1 = m2 = 1`. -/
theorem elastic_collision_separating_witness :
    ¬ ((Mass.fin 1) = Mass.inf ∧ (Mass.fin 1) = Mass.inf) ∧
    0 ≤ QVec.dot ⟨1, 0⟩ ⟨1, 0⟩ ∧
    CollisionSystem.elastic_collision ⟨1, 0⟩ ⟨1, 0⟩ (.fin 1) (.fin 1) false
      = (0, 0) :=
  ⟨by simp, by norm_num [QVec.dot],
    elastic_collision_separating ⟨1, 0⟩ ⟨1, 0⟩ (.fin 1) (.fin 1) (by simp)
      (by norm_num [QVec.dot])⟩

/-- Claim C4: the double dispatch: `CollisionSystem.collision_vector`
returns `o1`'s probe result whenever that probe yields a vector; if
`o1`'s probe declines it returns the negation of `o2`'s probe result;
and if both probes decline it returns the zero vector (the pair is
treated as non-colliding). -/
theorem collision_vector_dispatch (o1 o2 : Body) :
    (∀ u : Vec, Body.collision_vector o1 o2 = some u →
      CollisionSystem.collision_vector o1 o2 = u) ∧
    (Body.collision_vector o1 o2 = none →
      ∀ u : Vec, Body.collision_vector o2 o1 = some u →
        CollisionSystem.collision_vector o1 o2 = -u) ∧
    (Body.collision_vector o1 o2 = none →
      Body.collision_vector o2 o1 = none →
      CollisionSystem.collision_vector o1 o2 = 0) := by
  refine ⟨?_, ?_, ?_⟩
  · intro u h
    unfold CollisionSystem.collision_vector
    rw [h]
  · intro h1 u h2
    unfold CollisionSystem.collision_vector
    rw [h1, h2]
  · intro h1 h2
    unfold CollisionSystem.collision_vector
    rw [h1, h2]

/-- Witness for C4: two far-apart balls exercise the first-probe case
(`some 0`: recognized pair, no contact); a ball against a wall exercises
the declined-then-negated case (the ball's probe declines, the wall's
answers); and two walls exercise the both-decline case. -/
theorem collision_vector_dispatch_witness :
    Body.collision_vector (Body.ball ⟨0, 0⟩ (1/2)) (Body.ball ⟨1, 0⟩ (1/2))
      = some 0 ∧
    CollisionSystem.collision_vector (Body.ball ⟨0, 0⟩ (1/2))
      (Body.ball ⟨1, 0⟩ (1/2)) = 0 ∧
    Body.collision_vector (Body.ball ⟨-(1/2), 0⟩ 1) (Body.wall ⟨0, 0⟩ 0 1)
      = none ∧
    Body.collision_vector (Body.wall ⟨0, 0⟩ 0 1) (Body.ball ⟨-(1/2), 0⟩ 1)
      = some 0 ∧
    CollisionSystem.collision_vector (Body.ball ⟨-(1/2), 0⟩ 1)
      (Body.wall ⟨0, 0⟩ 0 1) = -0 ∧
    Body.collision_vector (Body.wall ⟨0, 0⟩ 0 1) (Body.wall ⟨3, 0⟩ 0 1)
      = none ∧
    Body.collision_vector (Body.wall ⟨3, 0⟩ 0 1) (Body.wall ⟨0, 0⟩ 0 1)
      = none ∧
    CollisionSystem.collision_vector (Body.wall ⟨0, 0⟩ 0 1)
      (Body.wall ⟨3, 0⟩ 0 1) = 0 := by
  have hsub : ((⟨1, 0⟩ : Vec) - ⟨0, 0⟩) = ⟨1, 0⟩ := by ext <;> simp
  have hlen : ((⟨1, 0⟩ : Vec) - ⟨0, 0⟩).length = 1 := by
    rw [hsub, Vec.length_mk_x 1 (by norm_num)]
  have hb : Body.collision_vector (Body.ball ⟨0, 0⟩ (1/2))
      (Body.ball ⟨1, 0⟩ (1/2)) = some 0 := by
    simp only [Body.collision_vector, Ball.collision_vector, Body.ballData,
      Ball.collision_vector_ball]
    rw [if_pos (by rw [hlen]; norm_num)]
  have hw1 : Body.collision_vector (Body.wall ⟨0, 0⟩ 0 1)
      (Body.wall ⟨3, 0⟩ 0 1) = none := by
    simp [Body.collision_vector, Wall.collision_vector, Body.ballData]
  have hw2 : Body.collision_vector (Body.wall ⟨3, 0⟩ 0 1)
      (Body.wall ⟨0, 0⟩ 0 1) = none := by
    simp [Body.collision_vector, Wall.collision_vector, Body.ballData]
  have hbw : Body.collision_vector (Body.ball ⟨-(1/2), 0⟩ 1)
      (Body.wall ⟨0, 0⟩ 0 1) = none := by
    simp [Body.collision_vector, Ball.collision_vector, Body.ballData]
  have hcb : Wall.collision_with_ball ⟨0, 0⟩ 0 1 ⟨-(1/2), 0⟩ 1 = 0 := by
    norm_num [Wall.collision_with_ball, Wall.left_bottom, Wall.left_top,
      Wall.right_bottom, Wall.right_top, Wall.edge_check, List.findSome?_cons,
      Vec.rotate, Vec.normalize, Vec.length, Vec.dot, Real.cos_zero,
      Real.sin_zero, Real.sqrt_one, Real.sqrt_zero]
    rfl
  have hwb : Body.collision_vector (Body.wall ⟨0, 0⟩ 0 1)
      (Body.ball ⟨-(1/2), 0⟩ 1) = some 0 := by
    simp only [Body.collision_vector, Wall.collision_vector, Body.ballData]
    rw [hcb]
  exact ⟨hb, (collision_vector_dispatch _ _).1 0 hb, hbw, hwb,
    (collision_vector_dispatch _ _).2.1 hbw 0 hwb, hw1, hw2,
    (collision_vector_dispatch _ _).2.2 hw1 hw2⟩

/-- Claim C5: every value returned by a collision detector — the
circle-circle probe when it does not decline, `Wall.collision_with_ball`,
and the dispatching `CollisionSystem.collision_vector` — is either the
zero vector or a vector of length exactly 1. -/
theorem detector_zero_or_unit :
    (∀ (spos : Vec) (ssize : ℝ) (other : Body) (u : Vec),
      Ball.collision_vector spos ssize other = some u →
      u = 0 ∨ u.length = 1) ∧
    (∀ (wpos : Vec) (wrot wsize : ℝ) (bpos : Vec) (bsize : ℝ),
      Wall.collision_with_ball wpos wrot wsize bpos bsize = 0 ∨
      (Wall.collision_with_ball wpos wrot wsize bpos bsize).length = 1) ∧
    (∀ o1 o2 : Body,
      CollisionSystem.collision_vector o1 o2 = 0 ∨
      (CollisionSystem.collision_vector o1 o2).length = 1) := by
  refine ⟨?_, ?_, ?_⟩
  · intro spos ssize other u h
    have h' : Body.collision_vector (Body.ball spos ssize) other = some u := h
    exact probe_some_zero_or_unit _ other u h'
  · intro wpos wrot wsize bpos bsize
    simp only [Wall.collision_with_ball]
    split
    · exact Vec.normalize_rotate_zero_or_unit _ _
    · split
      · exact Vec.normalize_rotate_zero_or_unit _ _
      · left; rfl
  · intro o1 o2
    unfold CollisionSystem.collision_vector
    split
    · next u h => exact probe_some_zero_or_unit o1 o2 u h
    · split
      · next u h =>
        rcases probe_some_zero_or_unit o2 o1 u h with h0 | h1
        · left; rw [h0, Vec.neg_zero_vec]
        · right; rw [Vec.length_neg, h1]
      · left; rfl

/-- Witness for C5: the circle-circle probe on two touching balls of
size 1 with centers one apart yields the unit normal `(1,0)`. -/
theorem detector_zero_or_unit_witness :
    Ball.collision_vector ⟨0, 0⟩ 1 (Body.ball ⟨1, 0⟩ 1)
      = some ((⟨1, 0⟩ : Vec) - ⟨0, 0⟩).normalize ∧
    (((⟨1, 0⟩ : Vec) - ⟨0, 0⟩).normalize = 0 ∨
      ((⟨1, 0⟩ : Vec) - ⟨0, 0⟩).normalize.length = 1) := by
  have hsub : ((⟨1, 0⟩ : Vec) - ⟨0, 0⟩) = ⟨1, 0⟩ := by ext <;> simp
  have hlen : ((⟨1, 0⟩ : Vec) - ⟨0, 0⟩).length = 1 := by
    rw [hsub, Vec.length_mk_x 1 (by norm_num)]
  have hb : Ball.collision_vector ⟨0, 0⟩ 1 (Body.ball ⟨1, 0⟩ 1)
      = some ((⟨1, 0⟩ : Vec) - ⟨0, 0⟩).normalize := by
    simp only [Ball.collision_vector, Body.ballData, Ball.collision_vector_ball]
    rw [if_neg (by rw [hlen]; norm_num),
      if_neg (by rw [hsub]; intro hc; have := congrArg Vec.x hc; simp at this)]
  exact ⟨hb, detector_zero_or_unit.1 ⟨0, 0⟩ 1 (Body.ball ⟨1, 0⟩ 1) _ hb⟩

/-- Claim C6, counterexample: the claim's final clause says centers
exactly `(self.size + other.size)/2` apart always yield a unit normal.
With two degenerate circles of size `0` at the same point the centers
are exactly `(0+0)/2` apart, yet the probe returns the zero vector
(coincident-centers branch), which has length `0`, not `1`. -/
theorem ball_collision_vector_touch_cex :
    ((⟨0, 0⟩ : Vec) - ⟨0, 0⟩).length = ((0 : ℝ) + 0) / 2 ∧
    ¬ ((Ball.collision_vector_ball ⟨0, 0⟩ 0 ⟨0, 0⟩ 0).length = 1) := by
  have hsub : ((⟨0, 0⟩ : Vec) - ⟨0, 0⟩) = 0 := by ext <;> simp
  have hlen : ((⟨0, 0⟩ : Vec) - ⟨0, 0⟩).length = 0 := by
    rw [hsub, Vec.length_zero_vec]
  refine ⟨by rw [hlen]; norm_num, ?_⟩
  have h0 : Ball.collision_vector_ball ⟨0, 0⟩ 0 ⟨0, 0⟩ 0 = 0 := by
    simp only [Ball.collision_vector_ball]
    rw [if_neg (by rw [hlen]; norm_num), if_pos hsub]
    exact hsub
  rw [h0, Vec.length_zero_vec]
  norm_num

/-- Claim C6, amended: for any two circular bodies,
`Ball.collision_vector`'s circle-circle case returns the zero vector
when `‖other.position - self.position‖ > (self.size + other.size)/2`,
returns the zero vector when the centers coincide exactly (not a
collision), and otherwise returns `normalize(other.position -
self.position)`; centers exactly `(self.size + other.size)/2` apart
yield a unit normal *provided `self.size + other.size > 0`* (the
condition the original claim lacked, failing only for the degenerate
distance-0 case). -/
theorem ball_collision_vector_cases (spos : Vec) (ssize : ℝ)
    (opos : Vec) (osize : ℝ) :
    ((ssize + osize) / 2 < (opos - spos).length →
      Ball.collision_vector_ball spos ssize opos osize = 0) ∧
    (opos - spos = 0 →
      Ball.collision_vector_ball spos ssize opos osize = 0) ∧
    (opos - spos ≠ 0 → ¬ ((ssize + osize) / 2 < (opos - spos).length) →
      Ball.collision_vector_ball spos ssize opos osize
        = (opos - spos).normalize) ∧
    (0 < ssize + osize → (opos - spos).length = (ssize + osize) / 2 →
      (Ball.collision_vector_ball spos ssize opos osize).length = 1) := by
  refine ⟨?_, ?_, ?_, ?_⟩
  · intro h
    simp only [Ball.collision_vector_ball]
    rw [if_pos h]
  · intro h
    simp only [Ball.collision_vector_ball]
    by_cases h1 : (ssize + osize) / 2 < (opos - spos).length
    · rw [if_pos h1]
    · rw [if_neg h1, if_pos h]
      exact h
  · intro h1 h2
    simp only [Ball.collision_vector_ball]
    rw [if_neg h2, if_neg h1]
  · intro hpos hdist
    have hne : opos - spos ≠ 0 := by
      intro hc
      rw [hc, Vec.length_zero_vec] at hdist
      have : ssize + osize = 0 := by linarith
      linarith
    have hlt : ¬ ((ssize + osize) / 2 < (opos - spos).length) := by
      rw [hdist]; exact lt_irrefl _
    simp only [Ball.collision_vector_ball]
    rw [if_neg hlt, if_neg hne]
    exact Vec.length_normalize _ hne

/-- Witness for C6: two balls of size 1 with centers exactly 1 apart
yield a unit normal. -/
theorem ball_collision_vector_cases_witness :
    (0 : ℝ) < 1 + 1 ∧ ((⟨1, 0⟩ : Vec) - ⟨0, 0⟩).length = (1 + 1) / 2 ∧
    (Ball.collision_vector_ball ⟨0, 0⟩ 1 ⟨1, 0⟩ 1).length = 1 := by
  have hsub : ((⟨1, 0⟩ : Vec) - ⟨0, 0⟩) = ⟨1, 0⟩ := by ext <;> simp
  have hlen : ((⟨1, 0⟩ : Vec) - ⟨0, 0⟩).length = (1 + 1) / 2 := by
    rw [hsub, Vec.length_mk_x 1 (by norm_num)]; norm_num
  exact ⟨by norm_num, hlen,
    (ball_collision_vector_cases ⟨0, 0⟩ 1 ⟨1, 0⟩ 1).2.2.2 (by norm_num) hlen⟩

theorem findSome_cons_pos {α β : Type} {f : α → Option β} {a : α}
    {l : List α} {v : β} (h : f a = some v) :
    (a :: l).findSome? f = some v := by
  rw [List.findSome?_cons, h]

theorem findSome_cons_neg {α β : Type} {f : α → Option β} {a : α}
    {l : List α} (h : f a = none) :
    (a :: l).findSome? f = l.findSome? f := by
  rw [List.findSome?_cons, h]

theorem edge_check_eq_ite (pr : Vec) (r : ℝ) (c1 c2 : Vec) :
    Wall.edge_check pr r c1 c2 =
      if 0 ≤ Vec.dot (pr - c1) (c2 - c1).normalize ∧
         Vec.dot (pr - c1) (c2 - c1).normalize ≤ (c2 - c1).length ∧
         ((pr - c1) -
           Vec.dot (pr - c1) (c2 - c1).normalize • (c2 - c1).normalize).length ≤ r
      then some ((pr - c1) -
        Vec.dot (pr - c1) (c2 - c1).normalize • (c2 - c1).normalize)
      else none := rfl

theorem corner_check_eq_ite (pr : Vec) (r : ℝ) (c : Vec) :
    Wall.corner_check pr r c =
      if (pr - c).length ≤ r then some (pr - c) else none := rfl

/-- Claim C7: the function `Wall.collision_with_ball` transforms the ball's center
into the wall's unrotated frame and tests the four edges in order
(left, bottom, right, top): the first edge whose projection scalar `e`
satisfies `0 ≤ e ≤ ‖c‖` and whose perpendicular residual satisfies
`‖n‖ ≤ ball.size/2` determines the result
`rotate(normalize(n), wall.rotation)`; the four corner tests
(`‖position_rotated - c‖ ≤ ball.size/2`) are evaluated only if all four
edge tests fail; if no edge and no corner matches, the zero vector is
returned.  Stated as: the source function equals the claim's decision
cascade `collision_with_ball_claim`. -/
theorem wall_collision_with_ball_eq_claim (wpos : Vec) (wrot wsize : ℝ)
    (bpos : Vec) (bsize : ℝ) :
    Wall.collision_with_ball wpos wrot wsize bpos bsize
      = Wall.collision_with_ball_claim wpos wrot wsize bpos bsize := by
  simp only [Wall.collision_with_ball, Wall.collision_with_ball_claim]
  set pr := (bpos - wpos).rotate (-wrot) + wpos with hpr
  set lb := Wall.left_bottom wpos wsize with hlb
  set lt := Wall.left_top wpos wsize with hlt
  set rb := Wall.right_bottom wpos wsize with hrb
  set rt := Wall.right_top wpos wsize with hrt
  set r := bsize / 2 with hr
  by_cases h1 : 0 ≤ Vec.dot (pr - lb) (lt - lb).normalize ∧
      Vec.dot (pr - lb) (lt - lb).normalize ≤ (lt - lb).length ∧
      ((pr - lb) -
        Vec.dot (pr - lb) (lt - lb).normalize • (lt - lb).normalize).length ≤ r
  · rw [findSome_cons_pos (by rw [edge_check_eq_ite, if_pos h1]), if_pos h1]
  rw [findSome_cons_neg (by rw [edge_check_eq_ite, if_neg h1]), if_neg h1]
  by_cases h2 : 0 ≤ Vec.dot (pr - lb) (rb - lb).normalize ∧
      Vec.dot (pr - lb) (rb - lb).normalize ≤ (rb - lb).length ∧
      ((pr - lb) -
        Vec.dot (pr - lb) (rb - lb).normalize • (rb - lb).normalize).length ≤ r
  · rw [findSome_cons_pos (by rw [edge_check_eq_ite, if_pos h2]), if_pos h2]
  rw [findSome_cons_neg (by rw [edge_check_eq_ite, if_neg h2]), if_neg h2]
  by_cases h3 : 0 ≤ Vec.dot (pr - rb) (rt - rb).normalize ∧
      Vec.dot (pr - rb) (rt - rb).normalize ≤ (rt - rb).length ∧
      ((pr - rb) -
        Vec.dot (pr - rb) (rt - rb).normalize • (rt - rb).normalize).length ≤ r
  · rw [findSome_cons_pos (by rw [edge_check_eq_ite, if_pos h3]), if_pos h3]
  rw [findSome_cons_neg (by rw [edge_check_eq_ite, if_neg h3]), if_neg h3]
  by_cases h4 : 0 ≤ Vec.dot (pr - lt) (rt - lt).normalize ∧
      Vec.dot (pr - lt) (rt - lt).normalize ≤ (rt - lt).length ∧
      ((pr - lt) -
        Vec.dot (pr - lt) (rt - lt).normalize • (rt - lt).normalize).length ≤ r
  · rw [findSome_cons_pos (by rw [edge_check_eq_ite, if_pos h4]), if_pos h4]
  rw [findSome_cons_neg (by rw [edge_check_eq_ite, if_neg h4]), if_neg h4,
    List.findSome?_nil]
  by_cases h5 : (pr - lt).length ≤ r
  · rw [findSome_cons_pos (by rw [corner_check_eq_ite, if_pos h5]), if_pos h5]
  rw [findSome_cons_neg (by rw [corner_check_eq_ite, if_neg h5]), if_neg h5]
  by_cases h6 : (pr - rt).length ≤ r
  · rw [findSome_cons_pos (by rw [corner_check_eq_ite, if_pos h6]), if_pos h6]
  rw [findSome_cons_neg (by rw [corner_check_eq_ite, if_neg h6]), if_neg h6]
  by_cases h7 : (pr - lb).length ≤ r
  · rw [findSome_cons_pos (by rw [corner_check_eq_ite, if_pos h7]), if_pos h7]
  rw [findSome_cons_neg (by rw [corner_check_eq_ite, if_neg h7]), if_neg h7]
  by_cases h8 : (pr - rb).length ≤ r
  · rw [findSome_cons_pos (by rw [corner_check_eq_ite, if_pos h8]), if_pos h8]
  rw [findSome_cons_neg (by rw [corner_check_eq_ite, if_neg h8]), if_neg h8,
    List.findSome?_nil]

/-- Claim C8: after a Splitter's motion-integration step in a tick, if
`mass·‖velocity‖ ≥ 1` then exactly two new Splitters are appended to the
live-body collection at the parent's (moved) position, each with size
`parent.size/√2` and mass `parent.mass/2`, with velocities the parent's
velocity rotated by `+split_angle` and `-split_angle` degrees
respectively, and the parent is removed; if `mass·‖velocity‖ < 1` the
collection keeps the parent, whose mass and size are unchanged by the
check (only its position advanced). -/
theorem splitter_on_update_cases (s : Splitter) (dt : ℝ) (others : List Body) :
    (1 ≤ s.mass * s.velocity.length →
      Splitter.on_update s dt others
        = others ++ [Body.splitter ⟨s.position + dt • s.velocity,
              s.velocity.rotate s.split_angle, s.size / Real.sqrt 2,
              s.mass / 2, 10⟩,
            Body.splitter ⟨s.position + dt • s.velocity,
              s.velocity.rotate (-s.split_angle), s.size / Real.sqrt 2,
              s.mass / 2, 10⟩]) ∧
    (s.mass * s.velocity.length < 1 →
      Splitter.on_update s dt others
        = others ++ [Body.splitter ⟨s.position + dt • s.velocity,
            s.velocity, s.size, s.mass, s.split_angle⟩]) := by
  constructor
  · intro h
    unfold Splitter.on_update Splitter.ball_update Splitter.child
    rw [if_pos h]
  · intro h
    unfold Splitter.on_update Splitter.ball_update
    rw [if_neg (not_le.mpr h)]

/-- Witness for C8: a Splitter with mass 1 and velocity `(1,0)` (speed
exactly 1) fissions. -/
theorem splitter_on_update_cases_witness :
    1 ≤ (1 : ℝ) * (⟨1, 0⟩ : Vec).length ∧
    Splitter.on_update ⟨⟨0, 0⟩, ⟨1, 0⟩, 1, 1, 10⟩ 0 []
      = [Body.splitter ⟨(⟨0, 0⟩ : Vec) + (0:ℝ) • (⟨1, 0⟩ : Vec),
            Vec.rotate ⟨1, 0⟩ 10, 1 / Real.sqrt 2, 1 / 2, 10⟩,
          Body.splitter ⟨(⟨0, 0⟩ : Vec) + (0:ℝ) • (⟨1, 0⟩ : Vec),
            Vec.rotate ⟨1, 0⟩ (-10), 1 / Real.sqrt 2, 1 / 2, 10⟩] := by
  have h : 1 ≤ (1 : ℝ) * (⟨1, 0⟩ : Vec).length := by
    rw [Vec.length_mk_x 1 (by norm_num)]; norm_num
  exact ⟨h, (splitter_on_update_cases ⟨⟨0, 0⟩, ⟨1, 0⟩, 1, 1, 10⟩ 0 []).1 h⟩

/-- Claim C9, counterexample: the claim says fission is triggered when
momentum *drops below* a threshold and never while momentum stays at or
above it.  No threshold `t` makes that match the code: a Splitter of
mass 1, velocity `(2,0)` (momentum 2) fissions, while one with velocity
`(0,0)` (momentum 0) does not — the code's trigger is `momentum ≥ 1`,
the opposite direction. -/
theorem splitter_threshold_cex :
    ¬ ∃ t : ℝ, ∀ (s : Splitter) (dt : ℝ) (others : List Body),
      (Splitter.on_update s dt others).length = others.length + 2 ↔
        s.mass * s.velocity.length < t := by
  rintro ⟨t, ht⟩
  have hlen2 : (⟨2, 0⟩ : Vec).length = 2 := Vec.length_mk_x 2 (by norm_num)
  have hlen0 : (⟨0, 0⟩ : Vec).length = 0 := by
    have : (⟨0, 0⟩ : Vec) = 0 := by ext <;> simp
    rw [this, Vec.length_zero_vec]
  have hA : (Splitter.on_update ⟨⟨0, 0⟩, ⟨2, 0⟩, 1, 1, 10⟩ 0 []).length
      = ([] : List Body).length + 2 := by
    unfold Splitter.on_update Splitter.ball_update Splitter.child
    rw [if_pos (by rw [hlen2]; norm_num)]
    rfl
  have hAt : (2 : ℝ) < t := by
    have h2 := (ht ⟨⟨0, 0⟩, ⟨2, 0⟩, 1, 1, 10⟩ 0 []).mp hA
    have h2' : (1 : ℝ) * (⟨2, 0⟩ : Vec).length < t := h2
    rw [hlen2] at h2'
    linarith
  have hB : ¬ ((Splitter.on_update ⟨⟨0, 0⟩, ⟨0, 0⟩, 1, 1, 10⟩ 0 []).length
      = ([] : List Body).length + 2) := by
    unfold Splitter.on_update Splitter.ball_update
    rw [if_neg (by rw [hlen0]; norm_num)]
    simp
  have hBt : ¬ ((1 : ℝ) * (⟨0, 0⟩ : Vec).length < t) := by
    intro hc
    exact hB ((ht ⟨⟨0, 0⟩, ⟨0, 0⟩, 1, 1, 10⟩ 0 []).mpr hc)
  rw [hlen0] at hBt
  push_neg at hBt
  linarith

/-- Claim C9, amended: a Splitter fissions into lighter copies exactly
when its momentum is *at or above* the threshold `1`: the replacement by
two lighter copies happens on a tick if and only if `mass·‖velocity‖ ≥
1`; no fission occurs while the momentum stays below the threshold. -/
theorem splitter_fission_iff (s : Splitter) (dt : ℝ) (others : List Body) :
    (Splitter.on_update s dt others).length = others.length + 2 ↔
      1 ≤ s.mass * s.velocity.length := by
  unfold Splitter.on_update Splitter.ball_update Splitter.child
  by_cases h : 1 ≤ s.mass * s.velocity.length
  · rw [if_pos h]
    simp [h]
  · rw [if_neg h]
    simp [h]

/-- Claim C10: a child spawned by fission carries the class-default
`split_angle` of `10`, regardless of the parent's `split_angle`: the
children's velocities are the parent's velocity rotated by
`±parent.split_angle`, yet each child's own `split_angle` attribute is
`10`. -/
theorem splitter_child_default_angle (s : Splitter) (dt : ℝ)
    (others : List Body) (h : 1 ≤ s.mass * s.velocity.length) :
    Splitter.on_update s dt others
      = others ++ [Body.splitter ((s.ball_update dt).child s.split_angle),
          Body.splitter ((s.ball_update dt).child (-s.split_angle))] ∧
    ((s.ball_update dt).child s.split_angle).split_angle = 10 ∧
    ((s.ball_update dt).child (-s.split_angle)).split_angle = 10 ∧
    ((s.ball_update dt).child s.split_angle).velocity
      = s.velocity.rotate s.split_angle ∧
    ((s.ball_update dt).child (-s.split_angle)).velocity
      = s.velocity.rotate (-s.split_angle) := by
  refine ⟨?_, rfl, rfl, rfl, rfl⟩
  simp only [Splitter.on_update]
  rw [if_pos (show 1 ≤ (s.ball_update dt).mass * (s.ball_update dt).velocity.length from h)]
  rfl

/-- Witness for C10: a parent with `split_angle = 30` spawns children
whose velocities are rotated by `±30` but whose own `split_angle` is the
class default `10`. -/
theorem splitter_child_default_angle_witness :
    1 ≤ (1 : ℝ) * (⟨1, 0⟩ : Vec).length ∧
    ((Splitter.ball_update ⟨⟨0, 0⟩, ⟨1, 0⟩, 1, 1, 30⟩ 0).child
        (Splitter.split_angle ⟨⟨0, 0⟩, ⟨1, 0⟩, 1, 1, 30⟩)).split_angle = 10 ∧
    ((Splitter.ball_update ⟨⟨0, 0⟩, ⟨1, 0⟩, 1, 1, 30⟩ 0).child
        (Splitter.split_angle ⟨⟨0, 0⟩, ⟨1, 0⟩, 1, 1, 30⟩)).velocity
      = Vec.rotate ⟨1, 0⟩ 30 := by
  have h : 1 ≤ (1 : ℝ) * (⟨1, 0⟩ : Vec).length := by
    rw [Vec.length_mk_x 1 (by norm_num)]; norm_num
  have hc := splitter_child_default_angle ⟨⟨0, 0⟩, ⟨1, 0⟩, 1, 1, 30⟩ 0 [] h
  exact ⟨h, hc.2.1, hc.2.2.2.1⟩
